import Mathlib

/-!
Shallow embedding of the pydantic metadata model declared in
`metadata_model.py` of the IEA Task 43 wind energy software metadata
repository, together with proofs about its validation behaviour.

The pydantic `BaseModel` declarations (`Author`, `Distribution`,
`WindEnergySoftwareMetadataDocument`) are embedded as Lean structures, and
pydantic's (v2) validation of a deserialized mapping against the declared
fields is embedded as the executable function `validateDoc`.  Input data is
modelled by the `Value` universe: null, strings, date objects, lists and
string-keyed dictionaries (arbitrary Python objects and numeric timestamp
coercion to dates lie outside this universe).  The embedding follows the
validation semantics pydantic applies to the declarations in the source:

* every field is validated independently and all errors are collected
  (validation never stops at the first error), each error carrying a
  location path made of field names and sequence indices;
* a `str` field accepts exactly strings; a `datetime.date` field accepts
  date objects and ISO `YYYY-MM-DD` strings;
* a `Literal[...]` field requires exact (case-sensitive) membership in its
  value set and otherwise reports a literal error;
* a field typed `X | None` without a default (`turbine_representation`,
  `location`) is required: null is accepted and yields `none`, but absence
  of the key is a missing-field error;
* a field with a declared default (`resource_type`) is filled in with the
  default when the key is absent;
* `list[...]` fields validate every element independently, reporting each
  element's errors under the element's index;
* keys of the input mapping that are not declared fields are ignored
  (pydantic's default `extra="ignore"` policy).
-/

namespace WindMeta

/-- A calendar date value, embedding Python's `datetime.date` objects. -/
structure Date where
  year : Nat
  month : Nat
  day : Nat
deriving DecidableEq, Repr

/-- Universe of deserialized input values fed to pydantic validation. -/
inductive Value : Type where
  | null : Value
  | str : String → Value
  | date : Date → Value
  | list : List Value → Value
  | dict : List (String × Value) → Value

/-- One segment of an error location path: a field name or a sequence index. -/
inductive PathSeg : Type where
  | field : String → PathSeg
  | index : Nat → PathSeg
deriving DecidableEq, Repr

/-- Kinds of validation errors pydantic reports for the declared field types. -/
inductive ErrKind : Type where
  | missing
  | stringType
  | dateType
  | dateParsing
  | listType
  | modelType
  | literalError
deriving DecidableEq, Repr

/-- A structured validation error: a location path plus a reason kind. -/
structure FieldError where
  loc : List PathSeg
  kind : ErrKind
deriving DecidableEq, Repr

/-- Result of validating one field or a whole model. -/
abbrev VRes (α : Type) : Type := Except (List FieldError) α

/-- The errors carried by a validation result (none on success). -/
def errs {α : Type} : VRes α → List FieldError
  | .ok _ => []
  | .error es => es

/-- Error-accumulating application: both branches are evaluated and the
errors of both are kept, mirroring pydantic's collection of every field's
errors rather than stopping at the first. -/
def seqA {α β : Type} : VRes (α → β) → VRes α → VRes β
  | .ok f, .ok a => .ok (f a)
  | .ok _, .error es => .error es
  | .error es, .ok _ => .error es
  | .error es, .error es2 => .error (es ++ es2)

/-- Look a key up in a deserialized mapping. -/
def lookupField (m : List (String × Value)) (k : String) : Option Value :=
  (m.find? fun p => p.1 == k).map Prod.snd

/-- Validate a required `str` field. -/
def validateStr (loc : List PathSeg) : Option Value → VRes String
  | none => .error [⟨loc, .missing⟩]
  | some (.str s) => .ok s
  | some _ => .error [⟨loc, .stringType⟩]

/-- Leap years of the proleptic Gregorian calendar used by `datetime.date`. -/
def isLeapYear (y : Nat) : Bool :=
  (y % 4 == 0 && y % 100 != 0) || y % 400 == 0

/-- Number of days in a month of a given year. -/
def daysInMonth (y m : Nat) : Nat :=
  if m == 2 then (if isLeapYear y then 29 else 28)
  else if m == 4 || m == 6 || m == 9 || m == 11 then 30
  else 31

/-- Parse an ISO `YYYY-MM-DD` string into a valid calendar date. -/
def parseDate (s : String) : Option Date :=
  match s.splitOn "-" with
  | [ys, ms, ds] =>
    if ys.length = 4 ∧ ms.length = 2 ∧ ds.length = 2 ∧
        ys.all Char.isDigit ∧ ms.all Char.isDigit ∧ ds.all Char.isDigit then
      match ys.toNat?, ms.toNat?, ds.toNat? with
      | some y, some m, some d =>
        if 1 ≤ y ∧ y ≤ 9999 ∧ 1 ≤ m ∧ m ≤ 12 ∧ 1 ≤ d ∧ d ≤ daysInMonth y m then
          some ⟨y, m, d⟩
        else none
      | _, _, _ => none
    else none
  | _ => none

/-- Validate a required `datetime.date` field: date objects pass through and
ISO strings are parsed. -/
def validateDate (loc : List PathSeg) : Option Value → VRes Date
  | none => .error [⟨loc, .missing⟩]
  | some (.date d) => .ok d
  | some (.str s) =>
    match parseDate s with
    | some d => .ok d
    | none => .error [⟨loc, .dateParsing⟩]
  | some _ => .error [⟨loc, .dateType⟩]

/-- Validate a required `Literal[...]` field against its allowed values. -/
def validateLiteral (allowed : List String) (loc : List PathSeg) :
    Option Value → VRes String
  | none => .error [⟨loc, .missing⟩]
  | some (.str s) => if s ∈ allowed then .ok s else .error [⟨loc, .literalError⟩]
  | some _ => .error [⟨loc, .literalError⟩]

/-- Validate a `Literal[...]` field that has a declared default: an absent
key yields the default without error. -/
def validateLiteralWithDefault (allowed : List String) (dflt : String)
    (loc : List PathSeg) : Option Value → VRes String
  | none => .ok dflt
  | some v => validateLiteral allowed loc (some v)

/-- Validate a required `Literal[...] | None` field: null is accepted and
yields `none`, but the key itself must be present. -/
def validateOptLiteral (allowed : List String) (loc : List PathSeg) :
    Option Value → VRes (Option String)
  | none => .error [⟨loc, .missing⟩]
  | some .null => .ok none
  | some v => Except.map Option.some (validateLiteral allowed loc (some v))

/-- Validate the elements of a sequence independently, numbering them from
`i` and collecting every element's errors under its index. -/
def validateElems {α : Type} (f : List PathSeg → Value → VRes α)
    (loc : List PathSeg) : Nat → List Value → VRes (List α)
  | _, [] => .ok []
  | i, v :: vs =>
    seqA (seqA (.ok List.cons) (f (loc ++ [.index i]) v))
      (validateElems f loc (i + 1) vs)

/-- Validate one element of a `list[str]` field. -/
def validateStrElem (loc : List PathSeg) (v : Value) : VRes String :=
  validateStr loc (some v)

/-- Validate a required `list[str]` field. -/
def validateStrList (loc : List PathSeg) : Option Value → VRes (List String)
  | none => .error [⟨loc, .missing⟩]
  | some (.list vs) => validateElems validateStrElem loc 0 vs
  | some _ => .error [⟨loc, .listType⟩]

/-- Validate a required `list[...]` field of nested models. -/
def validateModelList {α : Type} (f : List PathSeg → Value → VRes α)
    (loc : List PathSeg) : Option Value → VRes (List α)
  | none => .error [⟨loc, .missing⟩]
  | some (.list vs) => validateElems f loc 0 vs
  | some _ => .error [⟨loc, .listType⟩]

/-- Details of an author, also known as creator (`Author` in the source). -/
structure Author where
  name : String
  orcid : String
  affiliation : String
deriving DecidableEq, Repr

/-- Details of a software distribution (`Distribution` in the source). -/
structure Distribution where
  distribution_platform : String
  url : String
deriving DecidableEq, Repr

/-- Metadata document for a piece of wind energy software
(`WindEnergySoftwareMetadataDocument` in the source).  `Literal` fields are
embedded as the string they hold at runtime; the two `... | None` fields are
embedded as `Option String`. -/
structure WindEnergySoftwareMetadataDocument where
  id : String
  name : String
  description : String
  latest_release_version : String
  latest_release_date : Date
  license : String
  source_access_right : String
  authors : List Author
  programming_languages : List String
  supported_platforms : List String
  resource_type : String
  resource_subtype : String
  repository_url : String
  documentation_url : String
  distributions : List Distribution
  function : String
  time_domain : String
  representation_level : String
  turbine_representation : Option String
  location : Option String
  input_description : String
  output_description : String
deriving DecidableEq, Repr

/-- Allowed values of `source_access_right`. -/
def sourceAccessRightValues : List String := ["open", "closed"]

/-- Allowed values of `resource_type` (a fixed constant). -/
def resourceTypeValues : List String := ["software"]

/-- Allowed values of `resource_subtype`. -/
def resourceSubtypeValues : List String := ["model", "analysis", "optimisation"]

/-- Allowed values of `time_domain`. -/
def timeDomainValues : List String := ["steady", "dynamic"]

/-- Allowed values of `representation_level`. -/
def representationLevelValues : List String := ["wind_farm", "turbine"]

/-- Allowed values of `turbine_representation` (besides null). -/
def turbineRepresentationValues : List String :=
  ["actuator", "bem", "vortex_method", "geometry_resolved"]

/-- Allowed values of `location` (besides null). -/
def locationValues : List String := ["onshore", "offshore"]

/-- Validate a mapping against the nested `Author` model. -/
def validateAuthor (loc : List PathSeg) : Value → VRes Author
  | .dict m =>
    seqA (seqA (seqA (.ok Author.mk)
      (validateStr (loc ++ [.field "name"]) (lookupField m "name")))
      (validateStr (loc ++ [.field "orcid"]) (lookupField m "orcid")))
      (validateStr (loc ++ [.field "affiliation"]) (lookupField m "affiliation"))
  | _ => .error [⟨loc, .modelType⟩]

/-- Validate a mapping against the nested `Distribution` model. -/
def validateDistribution (loc : List PathSeg) : Value → VRes Distribution
  | .dict m =>
    seqA (seqA (.ok Distribution.mk)
      (validateStr (loc ++ [.field "distribution_platform"])
        (lookupField m "distribution_platform")))
      (validateStr (loc ++ [.field "url"]) (lookupField m "url"))
  | _ => .error [⟨loc, .modelType⟩]

/-- Validate a deserialized mapping against
`WindEnergySoftwareMetadataDocument`: every declared field is validated
independently, in declaration order, and all errors are collected. -/
def validateDoc (m : List (String × Value)) :
    VRes WindEnergySoftwareMetadataDocument :=
  seqA (seqA (seqA (seqA (seqA (seqA (seqA (seqA (seqA (seqA (seqA (seqA (seqA
    (seqA (seqA (seqA (seqA (seqA (seqA (seqA (seqA (seqA
    (.ok WindEnergySoftwareMetadataDocument.mk)
    (validateStr [.field "id"] (lookupField m "id")))
    (validateStr [.field "name"] (lookupField m "name")))
    (validateStr [.field "description"] (lookupField m "description")))
    (validateStr [.field "latest_release_version"]
      (lookupField m "latest_release_version")))
    (validateDate [.field "latest_release_date"]
      (lookupField m "latest_release_date")))
    (validateStr [.field "license"] (lookupField m "license")))
    (validateLiteral sourceAccessRightValues [.field "source_access_right"]
      (lookupField m "source_access_right")))
    (validateModelList validateAuthor [.field "authors"]
      (lookupField m "authors")))
    (validateStrList [.field "programming_languages"]
      (lookupField m "programming_languages")))
    (validateStrList [.field "supported_platforms"]
      (lookupField m "supported_platforms")))
    (validateLiteralWithDefault resourceTypeValues "software"
      [.field "resource_type"] (lookupField m "resource_type")))
    (validateLiteral resourceSubtypeValues [.field "resource_subtype"]
      (lookupField m "resource_subtype")))
    (validateStr [.field "repository_url"] (lookupField m "repository_url")))
    (validateStr [.field "documentation_url"]
      (lookupField m "documentation_url")))
    (validateModelList validateDistribution [.field "distributions"]
      (lookupField m "distributions")))
    (validateStr [.field "function"] (lookupField m "function")))
    (validateLiteral timeDomainValues [.field "time_domain"]
      (lookupField m "time_domain")))
    (validateLiteral representationLevelValues [.field "representation_level"]
      (lookupField m "representation_level")))
    (validateOptLiteral turbineRepresentationValues
      [.field "turbine_representation"]
      (lookupField m "turbine_representation")))
    (validateOptLiteral locationValues [.field "location"]
      (lookupField m "location")))
    (validateStr [.field "input_description"]
      (lookupField m "input_description")))
    (validateStr [.field "output_description"]
      (lookupField m "output_description"))

/-- Serialize an `Author` back to the interchange form (`model_dump`). -/
def serializeAuthor (a : Author) : Value :=
  .dict [("name", .str a.name), ("orcid", .str a.orcid),
    ("affiliation", .str a.affiliation)]

/-- Serialize a `Distribution` back to the interchange form. -/
def serializeDistribution (d : Distribution) : Value :=
  .dict [("distribution_platform", .str d.distribution_platform),
    ("url", .str d.url)]

/-- Serialize an optional enum field: `none` becomes null. -/
def serializeOptStr : Option String → Value
  | none => .null
  | some s => .str s

/-- Serialize a validated document back to the interchange mapping, the way
`model_dump` emits every declared field (optional fields as null). -/
def serializeDoc (r : WindEnergySoftwareMetadataDocument) :
    List (String × Value) :=
  [("id", .str r.id),
   ("name", .str r.name),
   ("description", .str r.description),
   ("latest_release_version", .str r.latest_release_version),
   ("latest_release_date", .date r.latest_release_date),
   ("license", .str r.license),
   ("source_access_right", .str r.source_access_right),
   ("authors", .list (r.authors.map serializeAuthor)),
   ("programming_languages", .list (r.programming_languages.map Value.str)),
   ("supported_platforms", .list (r.supported_platforms.map Value.str)),
   ("resource_type", .str r.resource_type),
   ("resource_subtype", .str r.resource_subtype),
   ("repository_url", .str r.repository_url),
   ("documentation_url", .str r.documentation_url),
   ("distributions", .list (r.distributions.map serializeDistribution)),
   ("function", .str r.function),
   ("time_domain", .str r.time_domain),
   ("representation_level", .str r.representation_level),
   ("turbine_representation", serializeOptStr r.turbine_representation),
   ("location", serializeOptStr r.location),
   ("input_description", .str r.input_description),
   ("output_description", .str r.output_description)]

/-- Remove every entry of a mapping whose key is `k`. -/
def dropKey (k : String) (m : List (String × Value)) : List (String × Value) :=
  m.filter fun p => p.1 != k

/-- Override (or add) the entry for key `k` in a mapping. -/
def setKey (k : String) (v : Value) (m : List (String × Value)) :
    List (String × Value) :=
  (k, v) :: dropKey k m

/-- A concrete fully valid input mapping.  It deliberately omits
`resource_type` (exercising the declared default) and supplies null for
`location` (exercising the nullable field). -/
def docInput : List (String × Value) :=
  [("id", .str "wesm-001"),
   ("name", .str "WindSim"),
   ("description", .str "A wind farm simulator"),
   ("latest_release_version", .str "1.2.3"),
   ("latest_release_date", .date ⟨2024, 1, 15⟩),
   ("license", .str "MIT"),
   ("source_access_right", .str "open"),
   ("authors", .list [.dict [("name", .str "Ada"), ("orcid", .str "0000-0001"),
     ("affiliation", .str "DTU")]]),
   ("programming_languages", .list [.str "Python"]),
   ("supported_platforms", .list [.str "linux"]),
   ("resource_subtype", .str "model"),
   ("repository_url", .str "https://example.org/repo"),
   ("documentation_url", .str "https://example.org/docs"),
   ("distributions", .list [.dict [("distribution_platform", .str "PyPI"),
     ("url", .str "https://pypi.org/p/windsim")]]),
   ("function", .str "simulate wakes"),
   ("time_domain", .str "steady"),
   ("representation_level", .str "wind_farm"),
   ("turbine_representation", .str "bem"),
   ("location", .null),
   ("input_description", .str "farm layout"),
   ("output_description", .str "power output")]

/-- The document record that validating `docInput` produces. -/
def docRecord : WindEnergySoftwareMetadataDocument :=
  { id := "wesm-001"
    name := "WindSim"
    description := "A wind farm simulator"
    latest_release_version := "1.2.3"
    latest_release_date := ⟨2024, 1, 15⟩
    license := "MIT"
    source_access_right := "open"
    authors := [⟨"Ada", "0000-0001", "DTU"⟩]
    programming_languages := ["Python"]
    supported_platforms := ["linux"]
    resource_type := "software"
    resource_subtype := "model"
    repository_url := "https://example.org/repo"
    documentation_url := "https://example.org/docs"
    distributions := [⟨"PyPI", "https://pypi.org/p/windsim"⟩]
    function := "simulate wakes"
    time_domain := "steady"
    representation_level := "wind_farm"
    turbine_representation := some "bem"
    location := none
    input_description := "farm layout"
    output_description := "power output" }

/-! ### Basic facts about error accumulation -/

theorem errs_seqA {α β : Type} (x : VRes (α → β)) (y : VRes α) :
    errs (seqA x y) = errs x ++ errs y := by
  cases x <;> cases y <;> simp [seqA, errs]

theorem seqA_ok_ok {α β : Type} (f : α → β) (a : α) :
    seqA (.ok f) (.ok a) = .ok (f a) := rfl

theorem seqA_ok_inv {α β : Type} {x : VRes (α → β)} {y : VRes α} {b : β}
    (h : seqA x y = .ok b) : ∃ f a, x = .ok f ∧ y = .ok a ∧ f a = b := by
  cases x with
  | ok f =>
    cases y with
    | ok a => exact ⟨f, a, rfl, rfl, by simpa [seqA] using h⟩
    | error es => simp [seqA] at h
  | error es => cases y <;> simp [seqA] at h

theorem error_of_mem_errs {α : Type} {x : VRes α} {e : FieldError}
    (h : e ∈ errs x) : ∃ es, x = .error es ∧ e ∈ es := by
  cases x with
  | ok a => simp [errs] at h
  | error es => exact ⟨es, rfl, h⟩

/-- The error list of a whole document validation is the concatenation, in
field declaration order, of the error lists of the individual fields. -/
theorem errs_validateDoc (m : List (String × Value)) :
    errs (validateDoc m) =
      errs (validateStr [.field "id"] (lookupField m "id")) ++
      errs (validateStr [.field "name"] (lookupField m "name")) ++
      errs (validateStr [.field "description"] (lookupField m "description")) ++
      errs (validateStr [.field "latest_release_version"]
        (lookupField m "latest_release_version")) ++
      errs (validateDate [.field "latest_release_date"]
        (lookupField m "latest_release_date")) ++
      errs (validateStr [.field "license"] (lookupField m "license")) ++
      errs (validateLiteral sourceAccessRightValues [.field "source_access_right"]
        (lookupField m "source_access_right")) ++
      errs (validateModelList validateAuthor [.field "authors"]
        (lookupField m "authors")) ++
      errs (validateStrList [.field "programming_languages"]
        (lookupField m "programming_languages")) ++
      errs (validateStrList [.field "supported_platforms"]
        (lookupField m "supported_platforms")) ++
      errs (validateLiteralWithDefault resourceTypeValues "software"
        [.field "resource_type"] (lookupField m "resource_type")) ++
      errs (validateLiteral resourceSubtypeValues [.field "resource_subtype"]
        (lookupField m "resource_subtype")) ++
      errs (validateStr [.field "repository_url"]
        (lookupField m "repository_url")) ++
      errs (validateStr [.field "documentation_url"]
        (lookupField m "documentation_url")) ++
      errs (validateModelList validateDistribution [.field "distributions"]
        (lookupField m "distributions")) ++
      errs (validateStr [.field "function"] (lookupField m "function")) ++
      errs (validateLiteral timeDomainValues [.field "time_domain"]
        (lookupField m "time_domain")) ++
      errs (validateLiteral representationLevelValues
        [.field "representation_level"]
        (lookupField m "representation_level")) ++
      errs (validateOptLiteral turbineRepresentationValues
        [.field "turbine_representation"]
        (lookupField m "turbine_representation")) ++
      errs (validateOptLiteral locationValues [.field "location"]
        (lookupField m "location")) ++
      errs (validateStr [.field "input_description"]
        (lookupField m "input_description")) ++
      errs (validateStr [.field "output_description"]
        (lookupField m "output_description")) := by
  unfold validateDoc
  simp only [errs_seqA]
  simp [errs]

/-! ### Inverting a successful document validation -/

/-- A successful document validation determines every field: each field
validator succeeded and produced exactly the corresponding field of the
returned record. -/
theorem validateDoc_ok_fields {m : List (String × Value)}
    {r : WindEnergySoftwareMetadataDocument} (h : validateDoc m = .ok r) :
    validateStr [.field "id"] (lookupField m "id") = .ok r.id ∧
    validateStr [.field "name"] (lookupField m "name") = .ok r.name ∧
    validateStr [.field "description"] (lookupField m "description") =
      .ok r.description ∧
    validateStr [.field "latest_release_version"]
      (lookupField m "latest_release_version") = .ok r.latest_release_version ∧
    validateDate [.field "latest_release_date"]
      (lookupField m "latest_release_date") = .ok r.latest_release_date ∧
    validateStr [.field "license"] (lookupField m "license") = .ok r.license ∧
    validateLiteral sourceAccessRightValues [.field "source_access_right"]
      (lookupField m "source_access_right") = .ok r.source_access_right ∧
    validateModelList validateAuthor [.field "authors"]
      (lookupField m "authors") = .ok r.authors ∧
    validateStrList [.field "programming_languages"]
      (lookupField m "programming_languages") = .ok r.programming_languages ∧
    validateStrList [.field "supported_platforms"]
      (lookupField m "supported_platforms") = .ok r.supported_platforms ∧
    validateLiteralWithDefault resourceTypeValues "software"
      [.field "resource_type"] (lookupField m "resource_type") =
      .ok r.resource_type ∧
    validateLiteral resourceSubtypeValues [.field "resource_subtype"]
      (lookupField m "resource_subtype") = .ok r.resource_subtype ∧
    validateStr [.field "repository_url"] (lookupField m "repository_url") =
      .ok r.repository_url ∧
    validateStr [.field "documentation_url"]
      (lookupField m "documentation_url") = .ok r.documentation_url ∧
    validateModelList validateDistribution [.field "distributions"]
      (lookupField m "distributions") = .ok r.distributions ∧
    validateStr [.field "function"] (lookupField m "function") =
      .ok r.function ∧
    validateLiteral timeDomainValues [.field "time_domain"]
      (lookupField m "time_domain") = .ok r.time_domain ∧
    validateLiteral representationLevelValues [.field "representation_level"]
      (lookupField m "representation_level") = .ok r.representation_level ∧
    validateOptLiteral turbineRepresentationValues
      [.field "turbine_representation"]
      (lookupField m "turbine_representation") =
      .ok r.turbine_representation ∧
    validateOptLiteral locationValues [.field "location"]
      (lookupField m "location") = .ok r.location ∧
    validateStr [.field "input_description"]
      (lookupField m "input_description") = .ok r.input_description ∧
    validateStr [.field "output_description"]
      (lookupField m "output_description") = .ok r.output_description := by
  unfold validateDoc at h
  obtain ⟨g21, a22, h, e22, q22⟩ := seqA_ok_inv h
  obtain ⟨g20, a21, h, e21, q21⟩ := seqA_ok_inv h
  obtain ⟨g19, a20, h, e20, q20⟩ := seqA_ok_inv h
  obtain ⟨g18, a19, h, e19, q19⟩ := seqA_ok_inv h
  obtain ⟨g17, a18, h, e18, q18⟩ := seqA_ok_inv h
  obtain ⟨g16, a17, h, e17, q17⟩ := seqA_ok_inv h
  obtain ⟨g15, a16, h, e16, q16⟩ := seqA_ok_inv h
  obtain ⟨g14, a15, h, e15, q15⟩ := seqA_ok_inv h
  obtain ⟨g13, a14, h, e14, q14⟩ := seqA_ok_inv h
  obtain ⟨g12, a13, h, e13, q13⟩ := seqA_ok_inv h
  obtain ⟨g11, a12, h, e12, q12⟩ := seqA_ok_inv h
  obtain ⟨g10, a11, h, e11, q11⟩ := seqA_ok_inv h
  obtain ⟨g9, a10, h, e10, q10⟩ := seqA_ok_inv h
  obtain ⟨g8, a9, h, e9, q9⟩ := seqA_ok_inv h
  obtain ⟨g7, a8, h, e8, q8⟩ := seqA_ok_inv h
  obtain ⟨g6, a7, h, e7, q7⟩ := seqA_ok_inv h
  obtain ⟨g5, a6, h, e6, q6⟩ := seqA_ok_inv h
  obtain ⟨g4, a5, h, e5, q5⟩ := seqA_ok_inv h
  obtain ⟨g3, a4, h, e4, q4⟩ := seqA_ok_inv h
  obtain ⟨g2, a3, h, e3, q3⟩ := seqA_ok_inv h
  obtain ⟨g1, a2, h, e2, q2⟩ := seqA_ok_inv h
  obtain ⟨g0, a1, h0, e1, q1⟩ := seqA_ok_inv h
  injection h0 with h0
  subst h0 q1 q2 q3 q4 q5 q6 q7 q8 q9 q10 q11
  subst q12 q13 q14 q15 q16 q17 q18 q19 q20 q21 q22
  exact ⟨e1, e2, e3, e4, e5, e6, e7, e8, e9, e10, e11, e12, e13, e14, e15,
    e16, e17, e18, e19, e20, e21, e22⟩

theorem validateLiteral_ok {allowed : List String} {loc : List PathSeg}
    {ov : Option Value} {s : String}
    (h : validateLiteral allowed loc ov = .ok s) : s ∈ allowed := by
  cases ov with
  | none => simp [validateLiteral] at h
  | some v =>
    cases v with
    | str t =>
      simp only [validateLiteral] at h
      split at h
      next hmem => cases h; exact hmem
      next => cases h
    | null => simp [validateLiteral] at h
    | date d => simp [validateLiteral] at h
    | list vs => simp [validateLiteral] at h
    | dict m => simp [validateLiteral] at h

theorem validateLiteralWithDefault_ok {allowed : List String} {dflt : String}
    {loc : List PathSeg} {ov : Option Value} {s : String}
    (hd : dflt ∈ allowed)
    (h : validateLiteralWithDefault allowed dflt loc ov = .ok s) :
    s ∈ allowed := by
  cases ov with
  | none =>
    simp only [validateLiteralWithDefault] at h
    cases h; exact hd
  | some v => exact validateLiteral_ok h

theorem validateOptLiteral_ok {allowed : List String} {loc : List PathSeg}
    {ov : Option Value} {o : Option String}
    (h : validateOptLiteral allowed loc ov = .ok o) :
    ∀ s ∈ o, s ∈ allowed := by
  cases ov with
  | none => simp [validateOptLiteral] at h
  | some v =>
    cases v with
    | null =>
      simp only [validateOptLiteral] at h
      cases h; intro s hs; cases hs
    | str t =>
      simp only [validateOptLiteral, Except.map] at h
      cases hv : validateLiteral allowed loc (some (.str t)) with
      | ok u =>
        rw [hv] at h
        cases h
        intro s hs
        cases hs
        exact validateLiteral_ok hv
      | error es => rw [hv] at h; cases h
    | date d => simp [validateOptLiteral, Except.map, validateLiteral] at h
    | list vs => simp [validateOptLiteral, Except.map, validateLiteral] at h
    | dict mm => simp [validateOptLiteral, Except.map, validateLiteral] at h

/-- Well-formedness of a document record: every enum-typed field holds one
of its declared values.  Validation only ever produces well-formed records,
and well-formed records survive a serialize/validate round trip. -/
def DocWf (r : WindEnergySoftwareMetadataDocument) : Prop :=
  r.source_access_right ∈ sourceAccessRightValues ∧
  r.resource_type ∈ resourceTypeValues ∧
  r.resource_subtype ∈ resourceSubtypeValues ∧
  r.time_domain ∈ timeDomainValues ∧
  r.representation_level ∈ representationLevelValues ∧
  (∀ s ∈ r.turbine_representation, s ∈ turbineRepresentationValues) ∧
  (∀ s ∈ r.location, s ∈ locationValues)

theorem docWf_of_ok {m : List (String × Value)}
    {r : WindEnergySoftwareMetadataDocument} (h : validateDoc m = .ok r) :
    DocWf r := by
  obtain ⟨-, -, -, -, -, -, h7, -, -, -, h11, h12, -, -, -, -, h17, h18, h19,
    h20, -, -⟩ := validateDoc_ok_fields h
  exact ⟨validateLiteral_ok h7,
    validateLiteralWithDefault_ok (by simp [resourceTypeValues]) h11,
    validateLiteral_ok h12, validateLiteral_ok h17, validateLiteral_ok h18,
    validateOptLiteral_ok h19, validateOptLiteral_ok h20⟩

/-! ### Re-validating a serialized document -/

theorem lookup_ser_id (r : WindEnergySoftwareMetadataDocument) :
    lookupField (serializeDoc r) "id" = some (.str r.id) := rfl

theorem lookup_ser_name (r : WindEnergySoftwareMetadataDocument) :
    lookupField (serializeDoc r) "name" = some (.str r.name) := rfl

theorem lookup_ser_description (r : WindEnergySoftwareMetadataDocument) :
    lookupField (serializeDoc r) "description" = some (.str r.description) := rfl

theorem lookup_ser_version (r : WindEnergySoftwareMetadataDocument) :
    lookupField (serializeDoc r) "latest_release_version" =
      some (.str r.latest_release_version) := rfl

theorem lookup_ser_date (r : WindEnergySoftwareMetadataDocument) :
    lookupField (serializeDoc r) "latest_release_date" =
      some (.date r.latest_release_date) := rfl

theorem lookup_ser_license (r : WindEnergySoftwareMetadataDocument) :
    lookupField (serializeDoc r) "license" = some (.str r.license) := rfl

theorem lookup_ser_access (r : WindEnergySoftwareMetadataDocument) :
    lookupField (serializeDoc r) "source_access_right" =
      some (.str r.source_access_right) := rfl

theorem lookup_ser_authors (r : WindEnergySoftwareMetadataDocument) :
    lookupField (serializeDoc r) "authors" =
      some (.list (r.authors.map serializeAuthor)) := rfl

theorem lookup_ser_langs (r : WindEnergySoftwareMetadataDocument) :
    lookupField (serializeDoc r) "programming_languages" =
      some (.list (r.programming_languages.map Value.str)) := rfl

theorem lookup_ser_platforms (r : WindEnergySoftwareMetadataDocument) :
    lookupField (serializeDoc r) "supported_platforms" =
      some (.list (r.supported_platforms.map Value.str)) := rfl

theorem lookup_ser_rtype (r : WindEnergySoftwareMetadataDocument) :
    lookupField (serializeDoc r) "resource_type" =
      some (.str r.resource_type) := rfl

theorem lookup_ser_rsubtype (r : WindEnergySoftwareMetadataDocument) :
    lookupField (serializeDoc r) "resource_subtype" =
      some (.str r.resource_subtype) := rfl

theorem lookup_ser_repo (r : WindEnergySoftwareMetadataDocument) :
    lookupField (serializeDoc r) "repository_url" =
      some (.str r.repository_url) := rfl

theorem lookup_ser_docs (r : WindEnergySoftwareMetadataDocument) :
    lookupField (serializeDoc r) "documentation_url" =
      some (.str r.documentation_url) := rfl

theorem lookup_ser_dists (r : WindEnergySoftwareMetadataDocument) :
    lookupField (serializeDoc r) "distributions" =
      some (.list (r.distributions.map serializeDistribution)) := rfl

theorem lookup_ser_function (r : WindEnergySoftwareMetadataDocument) :
    lookupField (serializeDoc r) "function" = some (.str r.function) := rfl

theorem lookup_ser_tdomain (r : WindEnergySoftwareMetadataDocument) :
    lookupField (serializeDoc r) "time_domain" =
      some (.str r.time_domain) := rfl

theorem lookup_ser_rlevel (r : WindEnergySoftwareMetadataDocument) :
    lookupField (serializeDoc r) "representation_level" =
      some (.str r.representation_level) := rfl

theorem lookup_ser_trepr (r : WindEnergySoftwareMetadataDocument) :
    lookupField (serializeDoc r) "turbine_representation" =
      some (serializeOptStr r.turbine_representation) := rfl

theorem lookup_ser_location (r : WindEnergySoftwareMetadataDocument) :
    lookupField (serializeDoc r) "location" =
      some (serializeOptStr r.location) := rfl

theorem lookup_ser_indesc (r : WindEnergySoftwareMetadataDocument) :
    lookupField (serializeDoc r) "input_description" =
      some (.str r.input_description) := rfl

theorem lookup_ser_outdesc (r : WindEnergySoftwareMetadataDocument) :
    lookupField (serializeDoc r) "output_description" =
      some (.str r.output_description) := rfl

theorem validateStr_some_str (loc : List PathSeg) (s : String) :
    validateStr loc (some (.str s)) = .ok s := rfl

theorem validateDate_some_date (loc : List PathSeg) (d : Date) :
    validateDate loc (some (.date d)) = .ok d := rfl

theorem validateLiteral_some_mem {allowed : List String} {s : String}
    {loc : List PathSeg} (h : s ∈ allowed) :
    validateLiteral allowed loc (some (.str s)) = .ok s := by
  simp [validateLiteral, h]

theorem validateLiteralWithDefault_some_mem {allowed : List String}
    {dflt s : String} {loc : List PathSeg} (h : s ∈ allowed) :
    validateLiteralWithDefault allowed dflt loc (some (.str s)) = .ok s := by
  simp only [validateLiteralWithDefault]
  exact validateLiteral_some_mem h

theorem validateOptLiteral_ser {allowed : List String} {o : Option String}
    {loc : List PathSeg} (h : ∀ s ∈ o, s ∈ allowed) :
    validateOptLiteral allowed loc (some (serializeOptStr o)) = .ok o := by
  cases o with
  | none => rfl
  | some s =>
    simp only [serializeOptStr, validateOptLiteral,
      validateLiteral_some_mem (h s rfl), Except.map]

theorem validateElems_strs (loc : List PathSeg) (i : Nat) (ss : List String) :
    validateElems validateStrElem loc i (ss.map Value.str) = .ok ss := by
  induction ss generalizing i with
  | nil => rfl
  | cons s ss ih =>
    simp [validateElems, validateStrElem, validateStr, seqA, ih]

theorem validateStrList_ser (loc : List PathSeg) (ss : List String) :
    validateStrList loc (some (.list (ss.map Value.str))) = .ok ss := by
  simp only [validateStrList]
  exact validateElems_strs loc 0 ss

theorem validateAuthor_ser (loc : List PathSeg) (a : Author) :
    validateAuthor loc (serializeAuthor a) = .ok a := rfl

theorem validateDistribution_ser (loc : List PathSeg) (d : Distribution) :
    validateDistribution loc (serializeDistribution d) = .ok d := rfl

theorem validateElems_authors (loc : List PathSeg) (i : Nat)
    (as : List Author) :
    validateElems validateAuthor loc i (as.map serializeAuthor) = .ok as := by
  induction as generalizing i with
  | nil => rfl
  | cons a as ih =>
    simp [validateElems, validateAuthor_ser, seqA, ih]

theorem validateAuthorList_ser (loc : List PathSeg) (as : List Author) :
    validateModelList validateAuthor loc
      (some (.list (as.map serializeAuthor))) = .ok as := by
  simp only [validateModelList]
  exact validateElems_authors loc 0 as

theorem validateElems_dists (loc : List PathSeg) (i : Nat)
    (ds : List Distribution) :
    validateElems validateDistribution loc i
      (ds.map serializeDistribution) = .ok ds := by
  induction ds generalizing i with
  | nil => rfl
  | cons d ds ih =>
    simp [validateElems, validateDistribution_ser, seqA, ih]

theorem validateDistList_ser (loc : List PathSeg) (ds : List Distribution) :
    validateModelList validateDistribution loc
      (some (.list (ds.map serializeDistribution))) = .ok ds := by
  simp only [validateModelList]
  exact validateElems_dists loc 0 ds

/-- A well-formed document record survives serialization followed by
re-validation unchanged. -/
theorem validate_serializeDoc (r : WindEnergySoftwareMetadataDocument)
    (hw : DocWf r) : validateDoc (serializeDoc r) = .ok r := by
  obtain ⟨h1, h2, h3, h4, h5, h6, h7⟩ := hw
  unfold validateDoc
  rw [lookup_ser_id, lookup_ser_name, lookup_ser_description,
    lookup_ser_version, lookup_ser_date, lookup_ser_license,
    lookup_ser_access, lookup_ser_authors, lookup_ser_langs,
    lookup_ser_platforms, lookup_ser_rtype, lookup_ser_rsubtype,
    lookup_ser_repo, lookup_ser_docs, lookup_ser_dists, lookup_ser_function,
    lookup_ser_tdomain, lookup_ser_rlevel, lookup_ser_trepr,
    lookup_ser_location, lookup_ser_indesc, lookup_ser_outdesc]
  rw [validateLiteral_some_mem h1, validateLiteralWithDefault_some_mem h2,
    validateLiteral_some_mem h3, validateLiteral_some_mem h4,
    validateLiteral_some_mem h5, validateOptLiteral_ser h6,
    validateOptLiteral_ser h7]
  simp only [validateStr_some_str, validateDate_some_date,
    validateStrList_ser, validateAuthorList_ser, validateDistList_ser,
    seqA_ok_ok]

/-! ### Where each validator's errors are located -/

theorem errs_map {α β : Type} (f : α → β) (x : VRes α) :
    errs (Except.map f x) = errs x := by
  cases x <;> simp [Except.map, errs]

theorem loc_of_validateStr {loc : List PathSeg} {ov : Option Value}
    {e : FieldError} (h : e ∈ errs (validateStr loc ov)) : e.loc = loc := by
  cases ov with
  | none => simp [validateStr, errs] at h; simp [h]
  | some v => cases v <;> simp [validateStr, errs] at h <;> simp [h]

theorem loc_of_validateDate {loc : List PathSeg} {ov : Option Value}
    {e : FieldError} (h : e ∈ errs (validateDate loc ov)) : e.loc = loc := by
  cases ov with
  | none => simp [validateDate, errs] at h; simp [h]
  | some v =>
    cases v with
    | str s =>
      simp only [validateDate] at h
      cases hp : parseDate s with
      | some d => rw [hp] at h; simp [errs] at h
      | none => rw [hp] at h; simp [errs] at h; simp [h]
    | null => simp [validateDate, errs] at h; simp [h]
    | date d => simp [validateDate, errs] at h
    | list vs => simp [validateDate, errs] at h; simp [h]
    | dict mm => simp [validateDate, errs] at h; simp [h]

theorem loc_of_validateLiteral {allowed : List String} {loc : List PathSeg}
    {ov : Option Value} {e : FieldError}
    (h : e ∈ errs (validateLiteral allowed loc ov)) : e.loc = loc := by
  cases ov with
  | none => simp [validateLiteral, errs] at h; simp [h]
  | some v =>
    cases v with
    | str s =>
      simp only [validateLiteral] at h
      split at h
      · simp [errs] at h
      · simp [errs] at h; simp [h]
    | null => simp [validateLiteral, errs] at h; simp [h]
    | date d => simp [validateLiteral, errs] at h; simp [h]
    | list vs => simp [validateLiteral, errs] at h; simp [h]
    | dict mm => simp [validateLiteral, errs] at h; simp [h]

theorem loc_of_validateLiteralWithDefault {allowed : List String}
    {dflt : String} {loc : List PathSeg} {ov : Option Value} {e : FieldError}
    (h : e ∈ errs (validateLiteralWithDefault allowed dflt loc ov)) :
    e.loc = loc := by
  cases ov with
  | none => simp [validateLiteralWithDefault, errs] at h
  | some v => exact loc_of_validateLiteral h

theorem loc_of_validateOptLiteral {allowed : List String} {loc : List PathSeg}
    {ov : Option Value} {e : FieldError}
    (h : e ∈ errs (validateOptLiteral allowed loc ov)) : e.loc = loc := by
  cases ov with
  | none => simp [validateOptLiteral, errs] at h; simp [h]
  | some v =>
    cases v with
    | null => simp [validateOptLiteral, errs] at h
    | str s =>
      simp only [validateOptLiteral, errs_map] at h
      exact loc_of_validateLiteral h
    | date d =>
      simp only [validateOptLiteral, errs_map] at h
      exact loc_of_validateLiteral h
    | list vs =>
      simp only [validateOptLiteral, errs_map] at h
      exact loc_of_validateLiteral h
    | dict mm =>
      simp only [validateOptLiteral, errs_map] at h
      exact loc_of_validateLiteral h

theorem loc_of_validateElems {α : Type} {f : List PathSeg → Value → VRes α}
    (hf : ∀ loc v e, e ∈ errs (f loc v) → ∃ rest, e.loc = loc ++ rest)
    (loc : List PathSeg) (i : Nat) (vs : List Value) (e : FieldError)
    (h : e ∈ errs (validateElems f loc i vs)) : ∃ rest, e.loc = loc ++ rest := by
  induction vs generalizing i with
  | nil => simp [validateElems, errs] at h
  | cons v vs ih =>
    simp only [validateElems, errs_seqA] at h
    simp only [errs, List.nil_append, List.mem_append] at h
    rcases h with h | h
    · obtain ⟨rest, hr⟩ := hf _ _ _ h
      exact ⟨[.index i] ++ rest, by rw [hr, List.append_assoc]⟩
    · exact ih (i + 1) h

theorem loc_of_validateStrElem (loc : List PathSeg) (v : Value)
    (e : FieldError) (h : e ∈ errs (validateStrElem loc v)) :
    ∃ rest, e.loc = loc ++ rest :=
  ⟨[], by rw [loc_of_validateStr h, List.append_nil]⟩

theorem loc_of_validateAuthor (loc : List PathSeg) (v : Value)
    (e : FieldError) (h : e ∈ errs (validateAuthor loc v)) :
    ∃ rest, e.loc = loc ++ rest := by
  cases v with
  | dict mm =>
    simp only [validateAuthor, errs_seqA] at h
    simp only [errs, List.nil_append, List.mem_append] at h
    rcases h with (h | h) | h
    · exact ⟨[.field "name"], loc_of_validateStr h⟩
    · exact ⟨[.field "orcid"], loc_of_validateStr h⟩
    · exact ⟨[.field "affiliation"], loc_of_validateStr h⟩
  | null => simp [validateAuthor, errs] at h; exact ⟨[], by simp [h]⟩
  | str s => simp [validateAuthor, errs] at h; exact ⟨[], by simp [h]⟩
  | date d => simp [validateAuthor, errs] at h; exact ⟨[], by simp [h]⟩
  | list vs => simp [validateAuthor, errs] at h; exact ⟨[], by simp [h]⟩

theorem loc_of_validateDistribution (loc : List PathSeg) (v : Value)
    (e : FieldError) (h : e ∈ errs (validateDistribution loc v)) :
    ∃ rest, e.loc = loc ++ rest := by
  cases v with
  | dict mm =>
    simp only [validateDistribution, errs_seqA] at h
    simp only [errs, List.nil_append, List.mem_append] at h
    rcases h with h | h
    · exact ⟨[.field "distribution_platform"], loc_of_validateStr h⟩
    · exact ⟨[.field "url"], loc_of_validateStr h⟩
  | null => simp [validateDistribution, errs] at h; exact ⟨[], by simp [h]⟩
  | str s => simp [validateDistribution, errs] at h; exact ⟨[], by simp [h]⟩
  | date d => simp [validateDistribution, errs] at h; exact ⟨[], by simp [h]⟩
  | list vs => simp [validateDistribution, errs] at h; exact ⟨[], by simp [h]⟩

theorem loc_of_validateStrList {loc : List PathSeg} {ov : Option Value}
    {e : FieldError} (h : e ∈ errs (validateStrList loc ov)) :
    ∃ rest, e.loc = loc ++ rest := by
  cases ov with
  | none => simp [validateStrList, errs] at h; exact ⟨[], by simp [h]⟩
  | some v =>
    cases v with
    | list vs =>
      simp only [validateStrList] at h
      exact loc_of_validateElems loc_of_validateStrElem loc 0 vs e h
    | null => simp [validateStrList, errs] at h; exact ⟨[], by simp [h]⟩
    | str s => simp [validateStrList, errs] at h; exact ⟨[], by simp [h]⟩
    | date d => simp [validateStrList, errs] at h; exact ⟨[], by simp [h]⟩
    | dict mm => simp [validateStrList, errs] at h; exact ⟨[], by simp [h]⟩

theorem loc_of_validateModelList {α : Type}
    {f : List PathSeg → Value → VRes α}
    (hf : ∀ loc v e, e ∈ errs (f loc v) → ∃ rest, e.loc = loc ++ rest)
    {loc : List PathSeg} {ov : Option Value} {e : FieldError}
    (h : e ∈ errs (validateModelList f loc ov)) :
    ∃ rest, e.loc = loc ++ rest := by
  cases ov with
  | none => simp [validateModelList, errs] at h; exact ⟨[], by simp [h]⟩
  | some v =>
    cases v with
    | list vs =>
      simp only [validateModelList] at h
      exact loc_of_validateElems hf loc 0 vs e h
    | null => simp [validateModelList, errs] at h; exact ⟨[], by simp [h]⟩
    | str s => simp [validateModelList, errs] at h; exact ⟨[], by simp [h]⟩
    | date d => simp [validateModelList, errs] at h; exact ⟨[], by simp [h]⟩
    | dict mm => simp [validateModelList, errs] at h; exact ⟨[], by simp [h]⟩

/-! ### Element errors propagate into the sequence's error list -/

theorem mem_errs_validateElems {α : Type} {f : List PathSeg → Value → VRes α}
    {loc : List PathSeg} {e : FieldError} (i j : Nat) (vs : List Value)
    (hj : j < vs.length)
    (h : e ∈ errs (f (loc ++ [.index (i + j)]) (vs.get ⟨j, hj⟩))) :
    e ∈ errs (validateElems f loc i vs) := by
  induction vs generalizing i j with
  | nil => exact absurd hj (by simp)
  | cons v vs ih =>
    simp only [validateElems, errs_seqA]
    simp only [errs, List.nil_append, List.mem_append]
    cases j with
    | zero => exact Or.inl (by simpa using h)
    | succ j' =>
      refine Or.inr (ih (i + 1) j' (by simpa using hj) ?_)
      have harith : i + 1 + j' = i + (j' + 1) := by omega
      rw [harith]
      simpa using h

theorem mem_errsDoc_author {m : List (String × Value)} {as : List Value}
    (ha : lookupField m "authors" = some (.list as)) {j : Nat}
    (hj : j < as.length) {e : FieldError}
    (h : e ∈ errs (validateAuthor [.field "authors", .index j]
      (as.get ⟨j, hj⟩))) :
    e ∈ errs (validateDoc m) := by
  have h8 : e ∈ errs (validateModelList validateAuthor [.field "authors"]
      (lookupField m "authors")) := by
    rw [ha]
    simp only [validateModelList]
    exact mem_errs_validateElems 0 j as hj (by simpa using h)
  rw [errs_validateDoc]
  simp [List.mem_append, h8]

theorem mem_errsDoc_distribution {m : List (String × Value)}
    {ds : List Value}
    (hd : lookupField m "distributions" = some (.list ds)) {j : Nat}
    (hj : j < ds.length) {e : FieldError}
    (h : e ∈ errs (validateDistribution [.field "distributions", .index j]
      (ds.get ⟨j, hj⟩))) :
    e ∈ errs (validateDoc m) := by
  have h15 : e ∈ errs (validateModelList validateDistribution
      [.field "distributions"] (lookupField m "distributions")) := by
    rw [hd]
    simp only [validateModelList]
    exact mem_errs_validateElems 0 j ds hj (by simpa using h)
  rw [errs_validateDoc]
  simp [List.mem_append, h15]

/-! ### Field name lists and key lookup facts -/

/-- The declared field names of the document model, in declaration order. -/
def docFieldNames : List String :=
  ["id", "name", "description", "latest_release_version",
   "latest_release_date", "license", "source_access_right", "authors",
   "programming_languages", "supported_platforms", "resource_type",
   "resource_subtype", "repository_url", "documentation_url",
   "distributions", "function", "time_domain", "representation_level",
   "turbine_representation", "location", "input_description",
   "output_description"]

/-- The required field names: every declared field except the defaulted
constant `resource_type`.  The two nullable fields are required too — they
accept null but may not be absent. -/
def requiredFieldNames : List String :=
  ["id", "name", "description", "latest_release_version",
   "latest_release_date", "license", "source_access_right", "authors",
   "programming_languages", "supported_platforms",
   "resource_subtype", "repository_url", "documentation_url",
   "distributions", "function", "time_domain", "representation_level",
   "turbine_representation", "location", "input_description",
   "output_description"]

theorem lookupField_cons_ne {k key : String} {v : Value}
    {m : List (String × Value)} (h : ¬k = key) :
    lookupField ((k, v) :: m) key = lookupField m key := by
  have hb : ((k, v).1 == key) = false := by simpa using h
  simp only [lookupField, List.find?_cons, hb]

/-- When `license` is present (here: null), no missing-field error for
`license` can occur anywhere in the document's error list: every other
field reports its errors under its own field name. -/
theorem no_missing_license {m : List (String × Value)}
    (hl : lookupField m "license" = some .null) :
    (⟨[.field "license"], .missing⟩ : FieldError) ∉ errs (validateDoc m) := by
  intro hmem
  rw [errs_validateDoc] at hmem
  simp only [List.mem_append] at hmem
  rcases hmem with
    (((((((((((((((((((((h|h)|h)|h)|h)|h)|h)|h)|h)|h)|h)|h)|h)|h)|h)|h)|h)|h)|h)|h)|h)|h)
  · exact absurd (loc_of_validateStr h) (by decide)
  · exact absurd (loc_of_validateStr h) (by decide)
  · exact absurd (loc_of_validateStr h) (by decide)
  · exact absurd (loc_of_validateStr h) (by decide)
  · exact absurd (loc_of_validateDate h) (by decide)
  · rw [hl] at h
    simp only [validateStr, errs, List.mem_singleton] at h
    exact absurd h (by decide)
  · exact absurd (loc_of_validateLiteral h) (by decide)
  · obtain ⟨rest, hr⟩ := loc_of_validateModelList loc_of_validateAuthor h
    rw [List.singleton_append] at hr
    injection hr with hhead htail
    exact absurd hhead (by decide)
  · obtain ⟨rest, hr⟩ := loc_of_validateStrList h
    rw [List.singleton_append] at hr
    injection hr with hhead htail
    exact absurd hhead (by decide)
  · obtain ⟨rest, hr⟩ := loc_of_validateStrList h
    rw [List.singleton_append] at hr
    injection hr with hhead htail
    exact absurd hhead (by decide)
  · exact absurd (loc_of_validateLiteralWithDefault h) (by decide)
  · exact absurd (loc_of_validateLiteral h) (by decide)
  · exact absurd (loc_of_validateStr h) (by decide)
  · exact absurd (loc_of_validateStr h) (by decide)
  · obtain ⟨rest, hr⟩ := loc_of_validateModelList loc_of_validateDistribution h
    rw [List.singleton_append] at hr
    injection hr with hhead htail
    exact absurd hhead (by decide)
  · exact absurd (loc_of_validateStr h) (by decide)
  · exact absurd (loc_of_validateLiteral h) (by decide)
  · exact absurd (loc_of_validateLiteral h) (by decide)
  · exact absurd (loc_of_validateOptLiteral h) (by decide)
  · exact absurd (loc_of_validateOptLiteral h) (by decide)
  · exact absurd (loc_of_validateStr h) (by decide)
  · exact absurd (loc_of_validateStr h) (by decide)

/-! ### Claim theorems -/

/-- C1: validation collects every independent violation instead of stopping
at the first: every input mapping that is missing both `name` and `license`
fails with an error list that contains a missing-field error for `name` and
a missing-field error for `license`. -/
theorem validateDoc_missing_name_and_license (m : List (String × Value))
    (hn : lookupField m "name" = none) (hl : lookupField m "license" = none) :
    ∃ es, validateDoc m = .error es ∧
      (⟨[.field "name"], .missing⟩ : FieldError) ∈ es ∧
      (⟨[.field "license"], .missing⟩ : FieldError) ∈ es := by
  have h1 : (⟨[.field "name"], .missing⟩ : FieldError) ∈
      errs (validateDoc m) := by
    rw [errs_validateDoc]
    simp [hn, validateStr, errs, List.mem_append]
  have h2 : (⟨[.field "license"], .missing⟩ : FieldError) ∈
      errs (validateDoc m) := by
    rw [errs_validateDoc]
    simp [hl, validateStr, errs, List.mem_append]
  obtain ⟨es, he, hm1⟩ := error_of_mem_errs h1
  obtain ⟨es2, he2, hm2⟩ := error_of_mem_errs h2
  rw [he] at he2
  injection he2 with hee
  exact ⟨es, he, hm1, hee.symm ▸ hm2⟩

/-- C1 witness: the empty input mapping is missing both `name` and
`license`, and its error list indeed contains both missing-field errors. -/
theorem validateDoc_missing_name_and_license_witness :
    ∃ es, validateDoc [] = .error es ∧
      (⟨[.field "name"], .missing⟩ : FieldError) ∈ es ∧
      (⟨[.field "license"], .missing⟩ : FieldError) ∈ es :=
  validateDoc_missing_name_and_license [] rfl rfl

/-- C2: `resource_type` behaves as the fixed constant `"software"`: every
successfully validated record carries `"software"`; when the key is absent
its field validator succeeds with the declared default `"software"` and
contributes no error; when the key is present with any value other than the
string `"software"`, validation fails and the error list contains the
conflicting-constant error (pydantic's literal error) at `resource_type`. -/
theorem validateDoc_resource_type_constant (m : List (String × Value)) :
    (∀ r, validateDoc m = .ok r → r.resource_type = "software") ∧
    (lookupField m "resource_type" = none →
      validateLiteralWithDefault resourceTypeValues "software"
        [.field "resource_type"] (lookupField m "resource_type") =
        .ok "software") ∧
    (∀ v, lookupField m "resource_type" = some v → v ≠ .str "software" →
      ∃ es, validateDoc m = .error es ∧
        (⟨[.field "resource_type"], .literalError⟩ : FieldError) ∈ es) := by
  refine ⟨?_, ?_, ?_⟩
  · intro r hr
    have hmem : r.resource_type ∈ resourceTypeValues := (docWf_of_ok hr).2.1
    simpa [resourceTypeValues] using hmem
  · intro hnone
    rw [hnone]
    rfl
  · intro v hv hne
    have hcomp : errs (validateLiteralWithDefault resourceTypeValues
        "software" [.field "resource_type"] (lookupField m "resource_type")) =
        [⟨[.field "resource_type"], .literalError⟩] := by
      rw [hv]
      cases v with
      | str s =>
        have hs : s ≠ "software" := fun hh => hne (by rw [hh])
        simp [validateLiteralWithDefault, validateLiteral, errs,
          resourceTypeValues, hs]
      | null => rfl
      | date d => rfl
      | list vs => rfl
      | dict mm => rfl
    apply error_of_mem_errs
    rw [errs_validateDoc]
    simp [List.mem_append, hcomp]

/-- C2 witness: validating `docInput` (which omits `resource_type`) yields
a record carrying `"software"`, and supplying `resource_type = "dataset"`
makes validation fail with the literal error at `resource_type`. -/
theorem validateDoc_resource_type_constant_witness :
    docRecord.resource_type = "software" ∧
    ∃ es, validateDoc (("resource_type", Value.str "dataset") :: docInput) =
        .error es ∧
      (⟨[.field "resource_type"], .literalError⟩ : FieldError) ∈ es :=
  ⟨(validateDoc_resource_type_constant docInput).1 docRecord rfl,
   (validateDoc_resource_type_constant
      (("resource_type", Value.str "dataset") :: docInput)).2.2
     (.str "dataset") rfl
     (by intro hcon; injection hcon with hcon2; exact absurd hcon2 (by decide))⟩

/-- C5: any input whose `time_domain` value is anything other than the
string `"steady"` or the string `"dynamic"` fails validation, regardless of
the validity of every other field, and the error list contains the
invalid-enum-value (literal) error at `time_domain`. -/
theorem validateDoc_time_domain_enum (m : List (String × Value)) (v : Value)
    (hv : lookupField m "time_domain" = some v)
    (h1 : v ≠ .str "steady") (h2 : v ≠ .str "dynamic") :
    ∃ es, validateDoc m = .error es ∧
      (⟨[.field "time_domain"], .literalError⟩ : FieldError) ∈ es := by
  have hcomp : errs (validateLiteral timeDomainValues [.field "time_domain"]
      (lookupField m "time_domain")) =
      [⟨[.field "time_domain"], .literalError⟩] := by
    rw [hv]
    cases v with
    | str s =>
      have hs1 : s ≠ "steady" := fun hh => h1 (by rw [hh])
      have hs2 : s ≠ "dynamic" := fun hh => h2 (by rw [hh])
      simp [validateLiteral, errs, timeDomainValues, hs1, hs2]
    | null => rfl
    | date d => rfl
    | list vs => rfl
    | dict mm => rfl
  apply error_of_mem_errs
  rw [errs_validateDoc]
  simp [List.mem_append, hcomp]

/-- C5 witness: `time_domain = "hourly"` on an otherwise valid input fails
with the literal error at `time_domain`. -/
theorem validateDoc_time_domain_enum_witness :
    ∃ es, validateDoc (setKey "time_domain" (.str "hourly") docInput) =
        .error es ∧
      (⟨[.field "time_domain"], .literalError⟩ : FieldError) ∈ es :=
  validateDoc_time_domain_enum _ (.str "hourly") rfl
    (by intro hcon; injection hcon with hh; exact absurd hh (by decide))
    (by intro hcon; injection hcon with hh; exact absurd hh (by decide))

/-- C7: records produced by validation round-trip — re-validating the
serialized form of such a record yields the record again — and validation
is a pure function of its input mapping, so validating the same mapping
twice yields identical results. -/
theorem validateDoc_roundtrip_pure (m : List (String × Value))
    (r : WindEnergySoftwareMetadataDocument) (h : validateDoc m = .ok r) :
    validateDoc (serializeDoc r) = .ok r ∧ validateDoc m = validateDoc m :=
  ⟨validate_serializeDoc r (docWf_of_ok h), rfl⟩

/-- C7 witness: the concrete valid input `docInput` validates to
`docRecord`, whose serialized form re-validates to `docRecord`. -/
theorem validateDoc_roundtrip_pure_witness :
    validateDoc docInput = .ok docRecord ∧
    validateDoc (serializeDoc docRecord) = .ok docRecord ∧
    validateDoc docInput = validateDoc docInput :=
  ⟨rfl, (validateDoc_roundtrip_pure docInput docRecord rfl).1,
    (validateDoc_roundtrip_pure docInput docRecord rfl).2⟩

/-- C3 counterexample: an input in which `turbine_representation` is absent
and every other field is valid does not validate successfully, contrary to
the claim; it fails with exactly one error, a missing-field error naming
`turbine_representation` — the field is declared `Literal[...] | None`
without a default, which makes it required. -/
theorem validateDoc_absent_turbine_representation :
    validateDoc (dropKey "turbine_representation" docInput) =
      .error [⟨[.field "turbine_representation"], .missing⟩] := rfl

/-- C3 amended: `turbine_representation` and `location` are the only fields
that may be null, not the only fields that may be absent: a null value for
either contributes no error to its field validator and yields `none` in a
successful output record, while the absence of any required key — every
declared field except the defaulted `resource_type`, including
`turbine_representation` and `location` themselves — makes validation fail
with a missing-field error naming exactly that field. -/
theorem validateDoc_required_vs_nullable (m : List (String × Value)) :
    (∀ k, k ∈ requiredFieldNames → lookupField m k = none →
      ∃ es, validateDoc m = .error es ∧
        (⟨[.field k], .missing⟩ : FieldError) ∈ es) ∧
    (lookupField m "turbine_representation" = some .null →
      errs (validateOptLiteral turbineRepresentationValues
        [.field "turbine_representation"]
        (lookupField m "turbine_representation")) = [] ∧
      ∀ r, validateDoc m = .ok r → r.turbine_representation = none) ∧
    (lookupField m "location" = some .null →
      errs (validateOptLiteral locationValues [.field "location"]
        (lookupField m "location")) = [] ∧
      ∀ r, validateDoc m = .ok r → r.location = none) := by
  refine ⟨?_, ?_, ?_⟩
  · intro k hk hnone
    apply error_of_mem_errs
    rw [errs_validateDoc]
    simp only [requiredFieldNames, List.mem_cons, List.not_mem_nil,
      or_false] at hk
    rcases hk with rfl | rfl | rfl | rfl | rfl | rfl | rfl | rfl | rfl | rfl |
      rfl | rfl | rfl | rfl | rfl | rfl | rfl | rfl | rfl | rfl | rfl
    all_goals
      simp [hnone, validateStr, validateDate, validateLiteral,
        validateLiteralWithDefault, validateOptLiteral, validateStrList,
        validateModelList, errs, List.mem_append]
  · intro hnull
    refine ⟨by rw [hnull]; rfl, ?_⟩
    intro r hr
    obtain ⟨-, -, -, -, -, -, -, -, -, -, -, -, -, -, -, -, -, -, e19, -, -, -⟩ :=
      validateDoc_ok_fields hr
    rw [hnull] at e19
    exact (Except.ok.inj e19).symm
  · intro hnull
    refine ⟨by rw [hnull]; rfl, ?_⟩
    intro r hr
    obtain ⟨-, -, -, -, -, -, -, -, -, -, -, -, -, -, -, -, -, -, -, e20, -, -⟩ :=
      validateDoc_ok_fields hr
    rw [hnull] at e20
    exact (Except.ok.inj e20).symm

/-- C3 amended witness: dropping `license` from the valid input fails with
the missing-field error for `license`, and `docInput` (whose `location` is
null) validates to `docRecord` with `location = none`. -/
theorem validateDoc_required_vs_nullable_witness :
    (∃ es, validateDoc (dropKey "license" docInput) = .error es ∧
      (⟨[.field "license"], .missing⟩ : FieldError) ∈ es) ∧
    docRecord.location = none :=
  ⟨(validateDoc_required_vs_nullable (dropKey "license" docInput)).1
     "license" (by decide) rfl,
   ((validateDoc_required_vs_nullable docInput).2.2 rfl).2 docRecord rfl⟩

/-- C4 counterexample: an input supplying the empty string for the root
`name` and for the first author's `name` validates successfully — the
plain `str` fields of the source carry no non-emptiness constraint, so the
claim that such inputs fail is false. -/
theorem validateDoc_accepts_empty_name :
    validateDoc (setKey "name" (.str "")
      (setKey "authors" (.list [.dict [("name", .str ""), ("orcid", .str "o"),
        ("affiliation", .str "a")]]) docInput)) =
      .ok { docRecord with name := "", authors := [⟨"", "o", "a"⟩] } := rfl

/-- C4 amended: `id`, `name`, `description` and `Author.name` are plain
text fields: every string value, the empty string included, is accepted and
copied verbatim into the validated record. -/
theorem validateDoc_text_fields_arbitrary (s : String) :
    ∃ r, validateDoc (setKey "id" (.str s) (setKey "name" (.str s)
        (setKey "description" (.str s) (setKey "authors"
          (.list [.dict [("name", .str s), ("orcid", .str "o"),
            ("affiliation", .str "a")]]) docInput)))) = .ok r ∧
      r.id = s ∧ r.name = s ∧ r.description = s ∧
      r.authors = [⟨s, "o", "a"⟩] :=
  ⟨{ docRecord with
      id := s
      name := s
      description := s
      authors := [⟨s, "o", "a"⟩] }, rfl, rfl, rfl, rfl, rfl⟩

/-- C6: elements of the `authors` and `distributions` sequences are
validated independently: every error of the element at position `j` appears
in the document's error list, under a path that starts with the field name
followed by the element's index, irrespective of what the other elements
contain. -/
theorem validateDoc_elementwise (m : List (String × Value)) :
    (∀ as, lookupField m "authors" = some (.list as) →
      ∀ j (hj : j < as.length) e,
        e ∈ errs (validateAuthor [.field "authors", .index j]
          (as.get ⟨j, hj⟩)) →
        e ∈ errs (validateDoc m) ∧
          ∃ rest, e.loc = [.field "authors", .index j] ++ rest) ∧
    (∀ ds, lookupField m "distributions" = some (.list ds) →
      ∀ j (hj : j < ds.length) e,
        e ∈ errs (validateDistribution [.field "distributions", .index j]
          (ds.get ⟨j, hj⟩)) →
        e ∈ errs (validateDoc m) ∧
          ∃ rest, e.loc = [.field "distributions", .index j] ++ rest) := by
  constructor
  · intro as ha j hj e he
    exact ⟨mem_errsDoc_author ha hj he, loc_of_validateAuthor _ _ _ he⟩
  · intro ds hd j hj e he
    exact ⟨mem_errsDoc_distribution hd hj he,
      loc_of_validateDistribution _ _ _ he⟩

/-- C6 witness: with `authors` holding a first element that is missing its
`orcid` and a second element that is not a mapping at all, the error of the
second element still appears in the document's error list, under the path
`authors[1]`. -/
theorem validateDoc_elementwise_witness :
    (⟨[.field "authors", .index 1], .modelType⟩ : FieldError) ∈
      errs (validateDoc (setKey "authors"
        (.list [.dict [("name", .str "A")], .str "oops"]) docInput)) ∧
    ∃ rest, (⟨[.field "authors", .index 1], .modelType⟩ : FieldError).loc =
      [.field "authors", .index 1] ++ rest :=
  (validateDoc_elementwise
      (setKey "authors" (.list [.dict [("name", .str "A")], .str "oops"])
        docInput)).1
    [.dict [("name", .str "A")], .str "oops"] rfl 1 (by decide)
    ⟨[.field "authors", .index 1], .modelType⟩ (by decide)

/-- C9: keys that are not declared schema fields are silently ignored:
prepending a binding for any unknown key to any input mapping leaves the
validation result — success record or error list — unchanged, so extra keys
produce no error and cannot influence or appear in the output record. -/
theorem validateDoc_ignores_unknown_keys (m : List (String × Value))
    (k : String) (v : Value) (hk : k ∉ docFieldNames) :
    validateDoc ((k, v) :: m) = validateDoc m := by
  simp only [docFieldNames, List.mem_cons, List.not_mem_nil, or_false,
    not_or] at hk
  obtain ⟨h1, h2, h3, h4, h5, h6, h7, h8, h9, h10, h11, h12, h13, h14, h15,
    h16, h17, h18, h19, h20, h21, h22⟩ := hk
  unfold validateDoc
  rw [lookupField_cons_ne h1, lookupField_cons_ne h2, lookupField_cons_ne h3,
    lookupField_cons_ne h4, lookupField_cons_ne h5, lookupField_cons_ne h6,
    lookupField_cons_ne h7, lookupField_cons_ne h8, lookupField_cons_ne h9,
    lookupField_cons_ne h10, lookupField_cons_ne h11,
    lookupField_cons_ne h12, lookupField_cons_ne h13,
    lookupField_cons_ne h14, lookupField_cons_ne h15,
    lookupField_cons_ne h16, lookupField_cons_ne h17,
    lookupField_cons_ne h18, lookupField_cons_ne h19,
    lookupField_cons_ne h20, lookupField_cons_ne h21,
    lookupField_cons_ne h22]

/-- C9 witness: adding the unknown key `favourite_colour` to the valid
input changes nothing — validation still succeeds with `docRecord`, which
has no trace of the extra key. -/
theorem validateDoc_ignores_unknown_keys_witness :
    validateDoc (("favourite_colour", Value.str "blue") :: docInput) =
      validateDoc docInput ∧
    validateDoc (("favourite_colour", Value.str "blue") :: docInput) =
      .ok docRecord :=
  ⟨validateDoc_ignores_unknown_keys docInput "favourite_colour"
     (.str "blue") (by decide),
   by
     rw [validateDoc_ignores_unknown_keys docInput "favourite_colour"
       (.str "blue") (by decide)]
     rfl⟩

/-- C10: a required text field that is present but null is a type mismatch,
not a missing field: with `license` null, validation fails, the error list
contains a string-type error located at `license` and contains no
missing-field error at `license`; null is accepted (producing no error)
only by the two nullable fields `turbine_representation` and `location`. -/
theorem validateDoc_null_license (m : List (String × Value))
    (hl : lookupField m "license" = some .null) :
    ∃ es, validateDoc m = .error es ∧
      (⟨[.field "license"], .stringType⟩ : FieldError) ∈ es ∧
      (⟨[.field "license"], .missing⟩ : FieldError) ∉ es ∧
      errs (validateOptLiteral turbineRepresentationValues
        [.field "turbine_representation"] (some .null)) = [] ∧
      errs (validateOptLiteral locationValues [.field "location"]
        (some .null)) = [] := by
  have hmem : (⟨[.field "license"], .stringType⟩ : FieldError) ∈
      errs (validateDoc m) := by
    rw [errs_validateDoc]
    simp [hl, validateStr, errs, List.mem_append]
  obtain ⟨es, he, hm⟩ := error_of_mem_errs hmem
  refine ⟨es, he, hm, ?_, rfl, rfl⟩
  intro hbad
  apply no_missing_license hl
  have hes : errs (validateDoc m) = es := by rw [he]; rfl
  exact hes.symm ▸ hbad

/-- C10 witness: the valid input with `license` set to null fails with the
string-type error at `license` and no missing-field error there. -/
theorem validateDoc_null_license_witness :
    ∃ es, validateDoc (setKey "license" .null docInput) = .error es ∧
      (⟨[.field "license"], .stringType⟩ : FieldError) ∈ es ∧
      (⟨[.field "license"], .missing⟩ : FieldError) ∉ es ∧
      errs (validateOptLiteral turbineRepresentationValues
        [.field "turbine_representation"] (some .null)) = [] ∧
      errs (validateOptLiteral locationValues [.field "location"]
        (some .null)) = [] :=
  validateDoc_null_license (setKey "license" .null docInput) rfl

end WindMeta
